import Mathlib

/-!
Verification of the sio2jail default seccomp policy catalog
(`src/seccomp/policy/DefaultPolicy.cc`) against its specification.

The catalog file is embedded directly.  The engine around it (rule and
action data model, predicate evaluation, the supervisor's trap loop) is
not part of the visible sources; those parts are modelled from the
specification (spec.md §3, §4.1, §4.3) and are marked as such below.
-/

namespace s2j

/-! ### Numeric constants

Values of the C constants used in `DefaultPolicy.cc`, as defined on Linux
(`<errno.h>`, `<fcntl.h>`). -/

def EPERM : Nat := 1
def EBADF : Nat := 9
def ENOTTY : Nat := 25
def ESPIPE : Nat := 29
def O_RDWR : Nat := 2
def O_RDONLY : Nat := 0
def O_WRONLY : Nat := 1

/-! ### Tracer verdicts and the tracee view -/

/-- `tracer::TraceAction`: the verdict a trap handler returns. -/
inductive TraceAction where
  | CONTINUE
  | KILL
deriving DecidableEq, Repr

/-- Modelled from the spec: the Tracee view (spec §2, §6) exposes six raw
unsigned 64-bit argument slots via `getSyscallArgument`; a slot value is a
natural number below `2^64`.  Only the accessor used by the catalog's
handlers is modelled. -/
structure Tracee where
  getSyscallArgument : Nat → Nat

/-! ### The trap handlers of `DefaultPolicy.cc`

Each lambda passed to `action::ActionTrace` in the catalog is embedded as a
function.  The `execve` lambda captures mutable state `executed`; it is
embedded in state-passing style. -/

/-- The `set_thread_area` handler (DefaultPolicy.cc:47-50): lets sio2jail
detect the syscall architecture and always continues. -/
def setThreadAreaHandler (_tracee : Tracee) : TraceAction :=
  TraceAction.CONTINUE

/-- The `execve` handler (DefaultPolicy.cc:54-59).  The captured mutable
flag `executed` (initially `false`) is passed and returned explicitly. -/
def execveHandler (executed : Bool) (_tracee : Tracee) : TraceAction × Bool :=
  if executed then
    (TraceAction.KILL, executed)
  else
    (TraceAction.CONTINUE, true)

/-- The `kill`/`tkill` handler (DefaultPolicy.cc:66-71).  `isSignalValid`
is declared in the (unavailable) `DefaultPolicy.h`, so the handler is
embedded parametrically in it. -/
def killTkillHandler (isSignalValid : Nat → Bool) (tracee : Tracee) :
    TraceAction :=
  if isSignalValid (tracee.getSyscallArgument 1) then
    TraceAction.CONTINUE
  else
    TraceAction.KILL

/-- The `tgkill` handler (DefaultPolicy.cc:76-81): same as the `kill`
handler but the signal number is argument slot 2. -/
def tgkillHandler (isSignalValid : Nat → Bool) (tracee : Tracee) :
    TraceAction :=
  if isSignalValid (tracee.getSyscallArgument 2) then
    TraceAction.CONTINUE
  else
    TraceAction.KILL

/-- Runs the `execve` handler over a sequence of invocations, threading
the captured `executed` flag through; the invocations may come from any
tracees, since the flag lives in the one handler instance. -/
def execveHandlerRun (executed : Bool) : List Tracee → List TraceAction
  | [] => []
  | tracee :: rest =>
      let step := execveHandler executed tracee
      step.1 :: execveHandlerRun step.2 rest

/-! ### Predicates, actions and rules

Modelled from the spec: a Comparison is
`(argumentIndex, operator, value, optional mask)` over unsigned 64-bit
argument values (spec §3); the catalog builds comparisons with the
`filter::SyscallArg` DSL.  Every rule in the catalog uses at most one
comparison, so a rule's predicate is an optional Comparison. -/

inductive CmpOp where
  | eq
  | ne
  | lt
  | le
  | gt
  | ge
deriving DecidableEq, Repr

structure Comparison where
  arg : Nat
  mask : Option Nat
  op : CmpOp
  value : Nat
deriving DecidableEq, Repr

/-- Modelled from the spec: predicate evaluation is a pure boolean
function of the argument vector (spec §3, §4.1); a masked comparison
tests `(arg & mask) op value`. -/
def evalComparison (args : Nat → Nat) (c : Comparison) : Bool :=
  let v :=
    match c.mask with
    | none => args c.arg
    | some m => args c.arg &&& m
  match c.op with
  | CmpOp.eq => v == c.value
  | CmpOp.ne => v != c.value
  | CmpOp.lt => decide (v < c.value)
  | CmpOp.le => decide (v ≤ c.value)
  | CmpOp.gt => decide (v > c.value)
  | CmpOp.ge => decide (v ≥ c.value)

/-- Identifies which of the catalog's trap lambdas an `ActionTrace` rule
carries; `plain` is the default-constructed `action::ActionTrace()` used
for `exit`/`exit_group`. -/
inductive TraceHandlerId where
  | setThreadArea
  | execve
  | killTkill
  | tgkill
  | plain
deriving DecidableEq, Repr

/-- Modelled from the spec: the closed Action variant
{Allow, DenyWithError(code), Kill, Trap(handler)} (spec §3).  The catalog
uses `ActionAllow`, `ActionErrno` and `ActionTrace`; `ActionKill` is the
fourth engine action. -/
inductive Action where
  | allow
  | errno (code : Nat)
  | kill
  | trace (handler : TraceHandlerId)
deriving DecidableEq, Repr

/-- Modelled from the spec: a Rule is
`(syscallName, predicate?, action)`, immutable once constructed
(spec §3). -/
structure SeccompRule where
  syscall : String
  action : Action
  predicate : Option Comparison
deriving DecidableEq, Repr

/-! ### The rule catalog (`DefaultPolicy.cc`)

Each `add*Rules` method appends to the shared `rules_` vector; it is
embedded as a function from the current rule list to the extended one,
appending exactly the rules the source appends, in source order. -/

/-- `DefaultPolicy::allowSyscalls` (DefaultPolicy.cc:234-239): one
unconditional Allow rule per name, in order. -/
def allowSyscalls (syscalls : List String) : List SeccompRule :=
  syscalls.map (fun syscall => ⟨syscall, Action.allow, none⟩)

/-- `DefaultPolicy::addExecutionControlRules` (DefaultPolicy.cc:26-103). -/
def addExecutionControlRules (rules : List SeccompRule)
    (allowFork : Bool) : List SeccompRule :=
  rules
  ++ allowSyscalls [
        "restart_syscall",
        "getpriority",
        "setpriority",
        "sigaction",
        "sigaltstack",
        "rt_sigaction",
        "rt_sigprocmask",
        "futex",
        "set_tid_address",
        "set_robust_list",
        "getpid",
        "getrandom",
        "sigaltstack",
        "sigsuspend"]
  ++ [⟨"set_thread_area", Action.trace TraceHandlerId.setThreadArea, none⟩]
  ++ [⟨"execve", Action.trace TraceHandlerId.execve, none⟩]
  ++ (["kill", "tkill"].map
        (fun syscall =>
          (⟨syscall, Action.trace TraceHandlerId.killTkill, none⟩ :
            SeccompRule)))
  ++ [⟨"tgkill", Action.trace TraceHandlerId.tgkill, none⟩]
  ++ (["exit", "exit_group"].map
        (fun syscall =>
          (⟨syscall, Action.trace TraceHandlerId.plain, none⟩ :
            SeccompRule)))
  ++ (if allowFork then allowSyscalls ["fork"] else [])
  ++ (["prlimit64"].map
        (fun syscall =>
          (⟨syscall, Action.errno EPERM, none⟩ : SeccompRule)))

/-- `DefaultPolicy::addMemoryManagementRules` (DefaultPolicy.cc:105-115). -/
def addMemoryManagementRules (rules : List SeccompRule) :
    List SeccompRule :=
  rules
  ++ allowSyscalls [
        "brk",
        "mmap",
        "mmap2",
        "munmap",
        "mremap",
        "mprotect",
        "arch_prctl"]

/-- `DefaultPolicy::addSystemInformationRules` (DefaultPolicy.cc:117-135). -/
def addSystemInformationRules (rules : List SeccompRule) :
    List SeccompRule :=
  rules
  ++ allowSyscalls [
        "getuid",
        "getgid",
        "geteuid",
        "getegid",
        "getrlimit",
        "ugetrlimit",
        "getcpu",
        "gettid",
        "uname",
        "olduname",
        "oldolduname",
        "sysinfo",
        "clock_gettime",
        "gettimeofday",
        "time"]

/-- The comparison `filter::SyscallArg(0) > 0` (DefaultPolicy.cc:146). -/
def writeFdComparison : Comparison := ⟨0, none, CmpOp.gt, 0⟩

/-- The comparison `filter::SyscallArg(0) <= 2` (DefaultPolicy.cc:175). -/
def lseekDenyComparison : Comparison := ⟨0, none, CmpOp.le, 2⟩

/-- The comparison `filter::SyscallArg(0) >= 3` (DefaultPolicy.cc:179). -/
def lseekAllowComparison : Comparison := ⟨0, none, CmpOp.ge, 3⟩

/-- `DefaultPolicy::addInputOutputRules` (DefaultPolicy.cc:137-181). -/
def addInputOutputRules (rules : List SeccompRule) : List SeccompRule :=
  rules
  ++ (["write", "writev"].map
        (fun syscall =>
          (⟨syscall, Action.allow, some writeFdComparison⟩ : SeccompRule)))
  ++ [⟨"dup2", Action.allow, some ⟨1, none, CmpOp.ge, 3⟩⟩]
  ++ allowSyscalls [
        "read",
        "readv",
        "dup",
        "fcntl",
        "fcntl64"]
  ++ [⟨"ioctl", Action.errno ENOTTY, none⟩]
  ++ (["lseek", "_llseek"].flatMap
        (fun syscall =>
          ([⟨syscall, Action.errno ESPIPE, some lseekDenyComparison⟩,
            ⟨syscall, Action.allow, some lseekAllowComparison⟩] :
            List SeccompRule)))

/-- The comparison `(filter::SyscallArg(1) & O_RDWR) == 0`
(DefaultPolicy.cc:209). -/
def openReadOnlyComparison : Comparison := ⟨1, some O_RDWR, CmpOp.eq, 0⟩

/-- `DefaultPolicy::addFileSystemAccessRules` (DefaultPolicy.cc:183-232). -/
def addFileSystemAccessRules (rules : List SeccompRule)
    (readOnly : Bool) : List SeccompRule :=
  rules
  ++ allowSyscalls [
        "stat",
        "stat64",
        "fstat",
        "fstat64",
        "lstat",
        "lstat64",
        "listxattr",
        "llistxattr",
        "flistxattr",
        "readlink",
        "access",
        "getdents"]
  ++ [⟨"close", Action.allow, some ⟨0, none, CmpOp.ge, 3⟩⟩]
  ++ (if readOnly then
        [⟨"open", Action.allow, some openReadOnlyComparison⟩]
        ++ (["unlink", "unlinkat", "symlink", "mkdir", "fsetxattr"].map
              (fun syscall =>
                (⟨syscall, Action.errno EPERM, none⟩ : SeccompRule)))
      else
        allowSyscalls [
          "open",
          "unlink",
          "unlinkat",
          "symlink",
          "mkdir"])

/-- `DefaultPolicy::DefaultPolicy` (DefaultPolicy.cc:14-20): the builders
run in this order on the initially empty `rules_`.  The default values of
the `allowFork` and `readOnly` switches live in the unavailable header,
so both are kept as parameters. -/
def defaultPolicyRules (allowFork readOnly : Bool) : List SeccompRule :=
  addInputOutputRules
    (addFileSystemAccessRules
      (addSystemInformationRules
        (addMemoryManagementRules
          (addExecutionControlRules [] allowFork)))
      readOnly)

/-! ### Policy evaluation

Modelled from the spec: evaluation is first-match-wins per syscall
invocation, scanning only the rules registered for that syscall name in
registration order; a rule with no predicate matches unconditionally; a
syscall for which no rule matches gets the policy's default action
(spec §3, §4.3). -/

/-- Whether a rule's predicate holds of an argument vector; a rule with
no predicate matches unconditionally. -/
def predicateHolds (rule : SeccompRule) (args : Nat → Nat) : Bool :=
  match rule.predicate with
  | none => true
  | some c => evalComparison args c

/-- Whether a rule applies to an invocation of `syscall` with `args`. -/
def ruleMatches (rule : SeccompRule) (syscall : String)
    (args : Nat → Nat) : Bool :=
  rule.syscall == syscall && predicateHolds rule args

/-- The first rule in registration order that matches the invocation. -/
def firstMatch (rules : List SeccompRule) (syscall : String)
    (args : Nat → Nat) : Option SeccompRule :=
  rules.find? (fun rule => ruleMatches rule syscall args)

/-- The action the policy takes for one invocation: the first matching
rule's action, or the default action when no rule matches. -/
def evaluatePolicy (rules : List SeccompRule) (defaultAction : Action)
    (syscall : String) (args : Nat → Nat) : Action :=
  match firstMatch rules syscall args with
  | some rule => rule.action
  | none => defaultAction

/-! ### Named rule groups

Derived names for the parts of the builders that the toggles keep fixed
or switch, used to state the frame properties. -/

/-- The filesystem rules added for both values of `readOnly`: the
stat-family allows and the `close` rule (DefaultPolicy.cc:185-203). -/
def fsCommonRules : List SeccompRule :=
  allowSyscalls [
      "stat",
      "stat64",
      "fstat",
      "fstat64",
      "lstat",
      "lstat64",
      "listxattr",
      "llistxattr",
      "flistxattr",
      "readlink",
      "access",
      "getdents"]
  ++ [⟨"close", Action.allow, some ⟨0, none, CmpOp.ge, 3⟩⟩]

/-- The filesystem rules added only when `readOnly` is true
(DefaultPolicy.cc:205-222). -/
def fsReadOnlyRules : List SeccompRule :=
  [⟨"open", Action.allow, some openReadOnlyComparison⟩]
  ++ (["unlink", "unlinkat", "symlink", "mkdir", "fsetxattr"].map
        (fun syscall =>
          (⟨syscall, Action.errno EPERM, none⟩ : SeccompRule)))

/-- The filesystem rules added only when `readOnly` is false
(DefaultPolicy.cc:224-230). -/
def fsWritableRules : List SeccompRule :=
  allowSyscalls [
      "open",
      "unlink",
      "unlinkat",
      "symlink",
      "mkdir"]

/-- The execution-control rules added before the `allowFork` branch
(DefaultPolicy.cc:28-89). -/
def execPreForkRules : List SeccompRule :=
  allowSyscalls [
      "restart_syscall",
      "getpriority",
      "setpriority",
      "sigaction",
      "sigaltstack",
      "rt_sigaction",
      "rt_sigprocmask",
      "futex",
      "set_tid_address",
      "set_robust_list",
      "getpid",
      "getrandom",
      "sigaltstack",
      "sigsuspend"]
  ++ [⟨"set_thread_area", Action.trace TraceHandlerId.setThreadArea, none⟩]
  ++ [⟨"execve", Action.trace TraceHandlerId.execve, none⟩]
  ++ (["kill", "tkill"].map
        (fun syscall =>
          (⟨syscall, Action.trace TraceHandlerId.killTkill, none⟩ :
            SeccompRule)))
  ++ [⟨"tgkill", Action.trace TraceHandlerId.tgkill, none⟩]
  ++ (["exit", "exit_group"].map
        (fun syscall =>
          (⟨syscall, Action.trace TraceHandlerId.plain, none⟩ :
            SeccompRule)))

/-- The execution-control rules added after the `allowFork` branch
(DefaultPolicy.cc:95-102). -/
def execPostForkRules : List SeccompRule :=
  [⟨"prlimit64", Action.errno EPERM, none⟩]

/-- The syscall names whose rules depend on a configuration toggle. -/
def toggledSyscalls : List String :=
  ["open", "unlink", "unlinkat", "symlink", "mkdir", "fsetxattr", "fork"]

/-! ### Post-construction behaviour of the policy object

Modelled from the spec: the supervisor resolves each trap against the
same policy's rules, first-match-wins, invoking the matched Trap rule's
handler (spec §4.3); the only state mutated after construction is the
internal state of handler closures (spec §5), here the `execve`
handler's `executed` flag. -/

/-- The observable state of a constructed `DefaultPolicy` together with
the internal state of its only stateful trap handler. -/
structure PolicyState where
  rules : List SeccompRule
  execveExecuted : Bool

/-- The state right after `DefaultPolicy::DefaultPolicy` returns: the
built rule list, with the `execve` handler's flag still `false`. -/
def initPolicyState (allowFork readOnly : Bool) : PolicyState :=
  ⟨defaultPolicyRules allowFork readOnly, false⟩

/-- `DefaultPolicy::getRules` (DefaultPolicy.cc:22-24): returns a
reference to `rules_`. -/
def getRules (s : PolicyState) : List SeccompRule :=
  s.rules

/-- Dispatches a trap to the handler the matched rule carries, threading
the `execve` handler's flag through. -/
def runHandler (isSignalValid : Nat → Bool) (h : TraceHandlerId)
    (execveExecuted : Bool) (t : Tracee) : TraceAction × Bool :=
  match h with
  | TraceHandlerId.setThreadArea => (setThreadAreaHandler t, execveExecuted)
  | TraceHandlerId.execve => execveHandler execveExecuted t
  | TraceHandlerId.killTkill =>
      (killTkillHandler isSignalValid t, execveExecuted)
  | TraceHandlerId.tgkill => (tgkillHandler isSignalValid t, execveExecuted)
  | TraceHandlerId.plain => (TraceAction.CONTINUE, execveExecuted)

/-- Modelled from the spec: one trap resolution (spec §4.3): find the
first matching rule; when its action is a Trap, invoke its handler and
return the verdict; other actions never reach the supervisor, so they
resolve without touching any state. -/
def onTrap (isSignalValid : Nat → Bool) (s : PolicyState)
    (syscall : String) (t : Tracee) : TraceAction × PolicyState :=
  match firstMatch s.rules syscall t.getSyscallArgument with
  | some rule =>
      match rule.action with
      | Action.trace h =>
          let step := runHandler isSignalValid h s.execveExecuted t
          (step.1, ⟨s.rules, step.2⟩)
      | _ => (TraceAction.CONTINUE, s)
  | none => (TraceAction.CONTINUE, s)

/-- Runs a whole sequence of trap resolutions against the policy
object. -/
def runTraps (isSignalValid : Nat → Bool) (s : PolicyState) :
    List (String × Tracee) → PolicyState
  | [] => s
  | e :: es => runTraps isSignalValid (onTrap isSignalValid s e.1 e.2).2 es

/-! ### Helper lemmas -/

/-- Boolean string equality agrees with decidable propositional
equality. -/
theorem string_beq_eq_decide (a b : String) : (a == b) = decide (a = b) := by
  by_cases h : a = b
  · simp [h]
  · simp [h, beq_eq_false_iff_ne]

/-- First-match evaluation scans exactly the rules registered for the
invoked syscall name, in registration order. -/
theorem firstMatch_eq_filter (rules : List SeccompRule) (syscall : String)
    (args : Nat → Nat) :
    firstMatch rules syscall args
      = (rules.filter (fun rule => rule.syscall == syscall)).find?
          (fun rule => predicateHolds rule args) := by
  rw [firstMatch, List.find?_filter]
  congr 1
  funext rule
  simp [ruleMatches, string_beq_eq_decide]

/-- Once the `executed` flag is set, every further `execve` handler
invocation returns `KILL` and leaves the flag set. -/
theorem execveHandlerRun_executed (tracees : List Tracee) :
    execveHandlerRun true tracees
      = List.replicate tracees.length TraceAction.KILL := by
  induction tracees with
  | nil => rfl
  | cons t ts ih =>
      simpa [execveHandlerRun, execveHandler, List.replicate] using ih

/-- Only the `execve` rule carries the `execve` trap handler, and it is
registered exactly once, for every toggle combination. -/
theorem filter_execve (af ro : Bool) :
    (defaultPolicyRules af ro).filter (fun r => r.syscall == "execve")
      = [⟨"execve", Action.trace TraceHandlerId.execve, none⟩] := by
  cases af <;> cases ro <;> rfl

/-- The rules registered for `set_thread_area`. -/
theorem filter_set_thread_area (af ro : Bool) :
    (defaultPolicyRules af ro).filter
        (fun r => r.syscall == "set_thread_area")
      = [⟨"set_thread_area", Action.trace TraceHandlerId.setThreadArea,
          none⟩] := by
  cases af <;> cases ro <;> rfl

/-- The rules registered for `kill`. -/
theorem filter_kill (af ro : Bool) :
    (defaultPolicyRules af ro).filter (fun r => r.syscall == "kill")
      = [⟨"kill", Action.trace TraceHandlerId.killTkill, none⟩] := by
  cases af <;> cases ro <;> rfl

/-- The rules registered for `tkill`. -/
theorem filter_tkill (af ro : Bool) :
    (defaultPolicyRules af ro).filter (fun r => r.syscall == "tkill")
      = [⟨"tkill", Action.trace TraceHandlerId.killTkill, none⟩] := by
  cases af <;> cases ro <;> rfl

/-- The rules registered for `tgkill`. -/
theorem filter_tgkill (af ro : Bool) :
    (defaultPolicyRules af ro).filter (fun r => r.syscall == "tgkill")
      = [⟨"tgkill", Action.trace TraceHandlerId.tgkill, none⟩] := by
  cases af <;> cases ro <;> rfl

/-- A rule list whose syscall names all lie in `names` contributes no
rule for a syscall outside `names`. -/
theorem filter_eq_nil_of_names (L : List SeccompRule) (names : List String)
    (hall : L.all (fun r => names.contains r.syscall) = true)
    (syscall : String) (hs : names.contains syscall = false) :
    L.filter (fun r => r.syscall == syscall) = [] := by
  induction L with
  | nil => rfl
  | cons r rs ih =>
      simp only [List.all_cons, Bool.and_eq_true] at hall
      have hne : (r.syscall == syscall) = false := by
        cases h : (r.syscall == syscall) with
        | false => rfl
        | true =>
            have : r.syscall = syscall := by
              rw [string_beq_eq_decide] at h
              exact of_decide_eq_true h
            rw [this] at hall
            rw [hall.1] at hs
            cases hs
      rw [List.filter_cons_of_neg (by simp [hne])]
      exact ih hall.2

/-- One trap resolution never changes the rule list. -/
theorem onTrap_rules (isSignalValid : Nat → Bool) (s : PolicyState)
    (syscall : String) (t : Tracee) :
    (onTrap isSignalValid s syscall t).2.rules = s.rules := by
  rw [onTrap]
  cases firstMatch s.rules syscall t.getSyscallArgument with
  | none => rfl
  | some rule =>
      obtain ⟨name, action, pred⟩ := rule
      cases action <;> rfl

/-- A whole sequence of trap resolutions never changes the rule list. -/
theorem runTraps_rules (isSignalValid : Nat → Bool)
    (events : List (String × Tracee)) (s : PolicyState) :
    (runTraps isSignalValid s events).rules = s.rules := by
  induction events generalizing s with
  | nil => rfl
  | cons e es ih =>
      rw [runTraps, ih, onTrap_rules]

/-- Unfolds one scan step of first-match search over the rules already
filtered to the invoked syscall. -/
theorem find?_predicateHolds_cons (r : SeccompRule) (rs : List SeccompRule)
    (args : Nat → Nat) :
    List.find? (fun rule => predicateHolds rule args) (r :: rs)
      = if predicateHolds r args then some r
        else List.find? (fun rule => predicateHolds rule args) rs := by
  cases h : predicateHolds r args <;> simp [List.find?_cons, h]

/-- The rules registered for `write`. -/
theorem filter_write (af ro : Bool) :
    (defaultPolicyRules af ro).filter (fun r => r.syscall == "write")
      = [⟨"write", Action.allow, some writeFdComparison⟩] := by
  cases af <;> cases ro <;> rfl

/-- The rules registered for `writev`. -/
theorem filter_writev (af ro : Bool) :
    (defaultPolicyRules af ro).filter (fun r => r.syscall == "writev")
      = [⟨"writev", Action.allow, some writeFdComparison⟩] := by
  cases af <;> cases ro <;> rfl

/-- The rules registered for `ioctl`. -/
theorem filter_ioctl (af ro : Bool) :
    (defaultPolicyRules af ro).filter (fun r => r.syscall == "ioctl")
      = [⟨"ioctl", Action.errno ENOTTY, none⟩] := by
  cases af <;> cases ro <;> rfl

/-- The rules registered for `lseek`. -/
theorem filter_lseek (af ro : Bool) :
    (defaultPolicyRules af ro).filter (fun r => r.syscall == "lseek")
      = [⟨"lseek", Action.errno ESPIPE, some lseekDenyComparison⟩,
         ⟨"lseek", Action.allow, some lseekAllowComparison⟩] := by
  cases af <;> cases ro <;> rfl

/-- The rules registered for `_llseek`. -/
theorem filter_llseek (af ro : Bool) :
    (defaultPolicyRules af ro).filter (fun r => r.syscall == "_llseek")
      = [⟨"_llseek", Action.errno ESPIPE, some lseekDenyComparison⟩,
         ⟨"_llseek", Action.allow, some lseekAllowComparison⟩] := by
  cases af <;> cases ro <;> rfl

/-- The rules registered for `open` when the filesystem is read-only. -/
theorem filter_open_readonly (af : Bool) :
    (defaultPolicyRules af true).filter (fun r => r.syscall == "open")
      = [⟨"open", Action.allow, some openReadOnlyComparison⟩] := by
  cases af <;> rfl

/-! ### Claim theorems -/

/-- C1: the `execve` trap handler, over the sequence of all its
invocations (from whichever tracees), returns `CONTINUE` on the first
invocation and `KILL` on every later one, because the `executed` flag is
state of the single rule instance; and that rule instance is the unique
`execve` rule of the policy, for every toggle combination. -/
theorem execve_trap_single_use_c1 (tracee : Tracee) (rest : List Tracee)
    (af ro : Bool) (args : Nat → Nat) :
    execveHandlerRun false (tracee :: rest)
      = TraceAction.CONTINUE :: List.replicate rest.length TraceAction.KILL
    ∧ firstMatch (defaultPolicyRules af ro) "execve" args
      = some ⟨"execve", Action.trace TraceHandlerId.execve, none⟩ := by
  constructor
  · simp [execveHandlerRun, execveHandler, execveHandlerRun_executed]
  · rw [firstMatch_eq_filter, filter_execve]; rfl

/-- C2: the `kill`/`tkill` trap handler returns `KILL` exactly when the
signal number read from the suspended tracee's argument slot 1 (slot 2
for `tgkill`) is invalid and `CONTINUE` otherwise, and its verdict
depends only on the value read from the tracee at that trap; those
handlers are the ones the policy registers for `kill`, `tkill` and
`tgkill`. -/
theorem kill_signal_validation_c2 (isSignalValid : Nat → Bool)
    (t t2 : Tracee) (af ro : Bool) (args : Nat → Nat) :
    (killTkillHandler isSignalValid t = TraceAction.KILL
       ↔ isSignalValid (t.getSyscallArgument 1) = false)
    ∧ (killTkillHandler isSignalValid t = TraceAction.CONTINUE
       ↔ isSignalValid (t.getSyscallArgument 1) = true)
    ∧ (tgkillHandler isSignalValid t = TraceAction.KILL
       ↔ isSignalValid (t.getSyscallArgument 2) = false)
    ∧ (tgkillHandler isSignalValid t = TraceAction.CONTINUE
       ↔ isSignalValid (t.getSyscallArgument 2) = true)
    ∧ (t.getSyscallArgument 1 = t2.getSyscallArgument 1 →
         killTkillHandler isSignalValid t = killTkillHandler isSignalValid t2)
    ∧ (t.getSyscallArgument 2 = t2.getSyscallArgument 2 →
         tgkillHandler isSignalValid t = tgkillHandler isSignalValid t2)
    ∧ firstMatch (defaultPolicyRules af ro) "kill" args
        = some ⟨"kill", Action.trace TraceHandlerId.killTkill, none⟩
    ∧ firstMatch (defaultPolicyRules af ro) "tkill" args
        = some ⟨"tkill", Action.trace TraceHandlerId.killTkill, none⟩
    ∧ firstMatch (defaultPolicyRules af ro) "tgkill" args
        = some ⟨"tgkill", Action.trace TraceHandlerId.tgkill, none⟩ := by
  refine ⟨?_, ?_, ?_, ?_, ?_, ?_, ?_, ?_, ?_⟩
  · cases h : isSignalValid (t.getSyscallArgument 1) <;>
      simp [killTkillHandler, h]
  · cases h : isSignalValid (t.getSyscallArgument 1) <;>
      simp [killTkillHandler, h]
  · cases h : isSignalValid (t.getSyscallArgument 2) <;>
      simp [tgkillHandler, h]
  · cases h : isSignalValid (t.getSyscallArgument 2) <;>
      simp [tgkillHandler, h]
  · intro h
    simp [killTkillHandler, h]
  · intro h
    simp [tgkillHandler, h]
  · rw [firstMatch_eq_filter, filter_kill]; rfl
  · rw [firstMatch_eq_filter, filter_tkill]; rfl
  · rw [firstMatch_eq_filter, filter_tgkill]; rfl

/-- Witness for C2 at a concrete validity predicate and concrete
tracees. -/
theorem kill_signal_validation_c2_witness :
    killTkillHandler (fun s => decide (s ≤ 64)) ⟨fun _ => 99⟩
        = TraceAction.KILL
    ∧ killTkillHandler (fun s => decide (s ≤ 64)) ⟨fun _ => 9⟩
        = killTkillHandler (fun s => decide (s ≤ 64)) ⟨fun i => 9 + 0 * i⟩ := by
  have h := kill_signal_validation_c2 (fun s => decide (s ≤ 64))
    (⟨fun _ => 99⟩ : Tracee) (⟨fun _ => 99⟩ : Tracee) true true (fun _ => 0)
  have h2 := kill_signal_validation_c2 (fun s => decide (s ≤ 64))
    (⟨fun _ => 9⟩ : Tracee) (⟨fun i => 9 + 0 * i⟩ : Tracee) true true
    (fun _ => 0)
  exact ⟨h.1.mpr (by decide), h2.2.2.2.2.1 (by decide)⟩

/-- C5: the architecture-probe handler bound to `set_thread_area`
returns `CONTINUE` on every invocation and for every tracee state,
reading nothing from the tracee; it is the handler of the unique
`set_thread_area` rule of the policy. -/
theorem set_thread_area_probe_c5 (t t2 : Tracee) (af ro : Bool)
    (args : Nat → Nat) :
    setThreadAreaHandler t = TraceAction.CONTINUE
    ∧ setThreadAreaHandler t = setThreadAreaHandler t2
    ∧ firstMatch (defaultPolicyRules af ro) "set_thread_area" args
        = some ⟨"set_thread_area", Action.trace TraceHandlerId.setThreadArea,
            none⟩ := by
  refine ⟨rfl, rfl, ?_⟩
  rw [firstMatch_eq_filter, filter_set_thread_area]; rfl

/-- C3: with the read-only toggle on, the `open` rule's masked predicate
`(argument[1] & O_RDWR) == 0` holds exactly for flag values whose
`O_RDWR` bits are clear (read-only `O_RDONLY` and write-only `O_WRONLY`
included), in which case `open` is allowed, and fails for every flags
value requesting `O_RDWR`, in which case the default action decides,
whatever it is. -/
theorem open_readonly_masked_c3 (af : Bool) (args : Nat → Nat)
    (d : Action) :
    (evalComparison args openReadOnlyComparison = true
       ↔ args 1 &&& O_RDWR = 0)
    ∧ (args 1 &&& O_RDWR = 0 →
         evaluatePolicy (defaultPolicyRules af true) d "open" args
           = Action.allow)
    ∧ (args 1 &&& O_RDWR ≠ 0 →
         evaluatePolicy (defaultPolicyRules af true) d "open" args = d)
    ∧ evalComparison (fun _ => O_RDONLY) openReadOnlyComparison = true
    ∧ evalComparison (fun _ => O_WRONLY) openReadOnlyComparison = true := by
  refine ⟨?_, ?_, ?_, by decide, by decide⟩
  · simp [evalComparison, openReadOnlyComparison, O_RDWR]
  · intro h
    have hp : predicateHolds
        ⟨"open", Action.allow, some openReadOnlyComparison⟩ args = true := by
      simp [predicateHolds, evalComparison, openReadOnlyComparison,
        O_RDWR] at h ⊢
      exact h
    rw [evaluatePolicy, firstMatch_eq_filter, filter_open_readonly,
      find?_predicateHolds_cons]
    simp [hp]
  · intro h
    have hp : predicateHolds
        ⟨"open", Action.allow, some openReadOnlyComparison⟩ args = false := by
      simp [predicateHolds, evalComparison, openReadOnlyComparison,
        O_RDWR] at h ⊢
      exact h
    rw [evaluatePolicy, firstMatch_eq_filter, filter_open_readonly,
      find?_predicateHolds_cons]
    simp [hp]

/-- Witness for C3: with read-only flags `open` is allowed; with
`O_RDWR` flags the default action (taken here to be `Kill`) applies. -/
theorem open_readonly_masked_c3_witness :
    evaluatePolicy (defaultPolicyRules true true) Action.kill "open"
        (fun _ => 0) = Action.allow
    ∧ evaluatePolicy (defaultPolicyRules true true) Action.kill "open"
        (fun _ => 2) = Action.kill := by
  have h0 := open_readonly_masked_c3 true (fun _ => 0) Action.kill
  have h2 := open_readonly_masked_c3 true (fun _ => 2) Action.kill
  exact ⟨h0.2.1 (by decide), h2.2.2.1 (by decide)⟩

/-- C4: the `write`/`writev` rule `(argument[0] > 0, Allow)` followed by
a default `DenyWithError(EBADF)` lets an invocation with descriptor 1
proceed and denies an invocation with descriptor 0 with `EBADF`. -/
theorem write_fd_guard_c4 (af ro : Bool) (args : Nat → Nat)
    (syscall : String) (hs : syscall = "write" ∨ syscall = "writev") :
    (args 0 = 1 →
       evaluatePolicy (defaultPolicyRules af ro) (Action.errno EBADF)
         syscall args = Action.allow)
    ∧ (args 0 = 0 →
       evaluatePolicy (defaultPolicyRules af ro) (Action.errno EBADF)
         syscall args = Action.errno EBADF) := by
  have main : ∀ rule : SeccompRule,
      (defaultPolicyRules af ro).filter (fun r => r.syscall == syscall)
          = [rule] →
      rule.action = Action.allow →
      rule.predicate = some writeFdComparison →
      (args 0 = 1 →
         evaluatePolicy (defaultPolicyRules af ro) (Action.errno EBADF)
           syscall args = Action.allow)
      ∧ (args 0 = 0 →
         evaluatePolicy (defaultPolicyRules af ro) (Action.errno EBADF)
           syscall args = Action.errno EBADF) := by
    intro rule hfilter haction hpred
    constructor
    · intro h1
      have hp : predicateHolds rule args = true := by
        simp [predicateHolds, hpred, evalComparison, writeFdComparison, h1]
      rw [evaluatePolicy, firstMatch_eq_filter, hfilter,
        find?_predicateHolds_cons]
      simp [hp, haction]
    · intro h0
      have hp : predicateHolds rule args = false := by
        simp [predicateHolds, hpred, evalComparison, writeFdComparison, h0]
      rw [evaluatePolicy, firstMatch_eq_filter, hfilter,
        find?_predicateHolds_cons]
      simp [hp]
  rcases hs with hs | hs
  · subst hs
    exact main _ (filter_write af ro) rfl rfl
  · subst hs
    exact main _ (filter_writev af ro) rfl rfl

/-- Witness for C4 at `write` with descriptors 1 and 0. -/
theorem write_fd_guard_c4_witness :
    evaluatePolicy (defaultPolicyRules true true) (Action.errno EBADF)
        "write" (fun _ => 1) = Action.allow
    ∧ evaluatePolicy (defaultPolicyRules true true) (Action.errno EBADF)
        "write" (fun _ => 0) = Action.errno EBADF := by
  have h1 := write_fd_guard_c4 true true (fun _ => 1) "write" (Or.inl rfl)
  have h0 := write_fd_guard_c4 true true (fun _ => 0) "write" (Or.inl rfl)
  exact ⟨h1.1 rfl, h0.2 rfl⟩

/-- C9: for `lseek` and `_llseek` the two registered predicates
`argument[0] <= 2` and `argument[0] >= 3` are disjoint and exhaustive —
one is the boolean negation of the other for every argument value — so
every invocation matches exactly one rule: descriptors 0-2 are denied
with `ESPIPE`, larger descriptors are allowed, and the default action
(quantified over all of them) is never reached. -/
theorem lseek_partition_c9 (af ro : Bool) (args : Nat → Nat)
    (d : Action) :
    (evalComparison args lseekDenyComparison
       = !evalComparison args lseekAllowComparison)
    ∧ evaluatePolicy (defaultPolicyRules af ro) d "lseek" args
        = (if args 0 ≤ 2 then Action.errno ESPIPE else Action.allow)
    ∧ evaluatePolicy (defaultPolicyRules af ro) d "_llseek" args
        = (if args 0 ≤ 2 then Action.errno ESPIPE else Action.allow) := by
  have heval : ∀ syscall rd ra,
      (defaultPolicyRules af ro).filter (fun r => r.syscall == syscall)
          = [⟨rd, Action.errno ESPIPE, some lseekDenyComparison⟩,
             ⟨ra, Action.allow, some lseekAllowComparison⟩] →
      evaluatePolicy (defaultPolicyRules af ro) d syscall args
        = (if args 0 ≤ 2 then Action.errno ESPIPE else Action.allow) := by
    intro syscall rd ra hfilter
    by_cases h : args 0 ≤ 2
    · have hp : predicateHolds
          ⟨rd, Action.errno ESPIPE, some lseekDenyComparison⟩ args
            = true := by
        simp [predicateHolds, evalComparison, lseekDenyComparison, h]
      rw [evaluatePolicy, firstMatch_eq_filter, hfilter,
        find?_predicateHolds_cons]
      simp [hp, h]
    · have hp : predicateHolds
          ⟨rd, Action.errno ESPIPE, some lseekDenyComparison⟩ args
            = false := by
        simp [predicateHolds, evalComparison, lseekDenyComparison, h]
      have hp2 : predicateHolds
          ⟨ra, Action.allow, some lseekAllowComparison⟩ args = true := by
        simp [predicateHolds, evalComparison, lseekAllowComparison]
        omega
      rw [evaluatePolicy, firstMatch_eq_filter, hfilter,
        find?_predicateHolds_cons]
      rw [find?_predicateHolds_cons]
      simp [hp, hp2, h]
  refine ⟨?_, heval "lseek" "lseek" "lseek" (filter_lseek af ro),
    heval "_llseek" "_llseek" "_llseek" (filter_llseek af ro)⟩
  by_cases h : args 0 ≤ 2 <;>
    simp [evalComparison, lseekDenyComparison, lseekAllowComparison, h] <;>
    omega

/-- C10: the `ioctl` rule has no predicate and action
`DenyWithError(ENOTTY)`: for every argument vector it is the first
match, so the caller always observes `ENOTTY` and the default action
(quantified over all of them) is never consulted. -/
theorem ioctl_always_enotty_c10 (af ro : Bool) (args : Nat → Nat)
    (d : Action) :
    evaluatePolicy (defaultPolicyRules af ro) d "ioctl" args
        = Action.errno ENOTTY
    ∧ firstMatch (defaultPolicyRules af ro) "ioctl" args
        = some ⟨"ioctl", Action.errno ENOTTY, none⟩ := by
  have hf : firstMatch (defaultPolicyRules af ro) "ioctl" args
      = some ⟨"ioctl", Action.errno ENOTTY, none⟩ := by
    rw [firstMatch_eq_filter, filter_ioctl]; rfl
  constructor
  · rw [evaluatePolicy, hf]
  · exact hf

/-- C6: each rule-group builder extends the current rule list by its own
group, leaving the existing rules untouched; the built policy is the
concatenation of the five groups in constructor invocation order
(execution control, memory management, system information, filesystem
access, input/output); and a rule matched among earlier rules stays the
first match after any later rules are appended. -/
theorem builder_order_priority_c6 (af ro : Bool) :
    defaultPolicyRules af ro
      = addExecutionControlRules [] af ++ addMemoryManagementRules []
        ++ addSystemInformationRules [] ++ addFileSystemAccessRules [] ro
        ++ addInputOutputRules []
    ∧ (∀ rules, addExecutionControlRules rules af
         = rules ++ addExecutionControlRules [] af)
    ∧ (∀ rules, addMemoryManagementRules rules
         = rules ++ addMemoryManagementRules [])
    ∧ (∀ rules, addSystemInformationRules rules
         = rules ++ addSystemInformationRules [])
    ∧ (∀ rules, addFileSystemAccessRules rules ro
         = rules ++ addFileSystemAccessRules [] ro)
    ∧ (∀ rules, addInputOutputRules rules
         = rules ++ addInputOutputRules [])
    ∧ (∀ (earlier later : List SeccompRule) (syscall : String)
         (args : Nat → Nat) (r : SeccompRule),
         firstMatch earlier syscall args = some r →
         firstMatch (earlier ++ later) syscall args = some r) := by
  refine ⟨?_, ?_, ?_, ?_, ?_, ?_, ?_⟩
  · simp [defaultPolicyRules, addExecutionControlRules,
      addMemoryManagementRules, addSystemInformationRules,
      addFileSystemAccessRules, addInputOutputRules, List.append_assoc]
  · intro rules
    simp [addExecutionControlRules, List.append_assoc]
  · intro rules
    simp [addMemoryManagementRules, List.append_assoc]
  · intro rules
    simp [addSystemInformationRules, List.append_assoc]
  · intro rules
    simp [addFileSystemAccessRules, List.append_assoc]
  · intro rules
    simp [addInputOutputRules, List.append_assoc]
  · intro earlier later syscall args r h
    rw [firstMatch] at h
    rw [firstMatch, List.find?_append, h]
    rfl

/-- Witness for C6: an earlier Allow rule keeps match priority over a
later Kill rule appended for the same syscall. -/
theorem builder_order_priority_c6_witness :
    firstMatch
        ([⟨"dummy", Action.allow, none⟩] ++ [⟨"dummy", Action.kill, none⟩])
        "dummy" (fun _ => 0)
      = some ⟨"dummy", Action.allow, none⟩ := by
  exact (builder_order_priority_c6 true true).2.2.2.2.2.2
    [⟨"dummy", Action.allow, none⟩] [⟨"dummy", Action.kill, none⟩]
    "dummy" (fun _ => 0) ⟨"dummy", Action.allow, none⟩ rfl

/-- C7: the read-only toggle switches only the
open/unlink/unlinkat/symlink/mkdir/fsetxattr rules of the filesystem
builder, whose stat-family and close rules are identical for both
values; the allow-fork toggle only inserts one unconditional Allow rule
for `fork`; and for every syscall outside the toggled names the policy's
decision is independent of both toggles, whatever the default action. -/
theorem toggle_frame_c7 (af ro : Bool) (rules : List SeccompRule) :
    addFileSystemAccessRules rules ro
      = rules ++ fsCommonRules
        ++ (if ro then fsReadOnlyRules else fsWritableRules)
    ∧ fsReadOnlyRules.all (fun r => toggledSyscalls.contains r.syscall)
        = true
    ∧ fsWritableRules.all (fun r => toggledSyscalls.contains r.syscall)
        = true
    ∧ addExecutionControlRules rules af
      = rules ++ execPreForkRules
        ++ (if af then allowSyscalls ["fork"] else []) ++ execPostForkRules
    ∧ allowSyscalls ["fork"] = [⟨"fork", Action.allow, none⟩]
    ∧ (∀ (af2 ro2 : Bool) (syscall : String) (args : Nat → Nat)
         (d : Action),
         toggledSyscalls.contains syscall = false →
         evaluatePolicy (defaultPolicyRules af ro) d syscall args
           = evaluatePolicy (defaultPolicyRules af2 ro2) d syscall args) := by
  refine ⟨?_, rfl, rfl, ?_, rfl, ?_⟩
  · cases ro <;>
      simp [addFileSystemAccessRules, fsCommonRules, fsReadOnlyRules,
        fsWritableRules, List.append_assoc]
  · cases af <;>
      simp [addExecutionControlRules, execPreForkRules, execPostForkRules,
        List.append_assoc]
  · intro af2 ro2 syscall args d hs
    have hdec : ∀ a r : Bool, defaultPolicyRules a r
        = execPreForkRules ++ (if a then allowSyscalls ["fork"] else [])
          ++ execPostForkRules ++ addMemoryManagementRules []
          ++ addSystemInformationRules [] ++ fsCommonRules
          ++ (if r then fsReadOnlyRules else fsWritableRules)
          ++ addInputOutputRules [] := by
      intro a r
      cases a <;> cases r <;> rfl
    have hfork : ∀ b : Bool,
        List.filter (fun r => r.syscall == syscall)
            (if b then allowSyscalls ["fork"] else []) = [] := by
      intro b
      cases b
      · rfl
      · exact filter_eq_nil_of_names (allowSyscalls ["fork"])
          toggledSyscalls rfl syscall hs
    have hfs : ∀ b : Bool,
        List.filter (fun r => r.syscall == syscall)
            (if b then fsReadOnlyRules else fsWritableRules) = [] := by
      intro b
      cases b
      · exact filter_eq_nil_of_names fsWritableRules
          toggledSyscalls rfl syscall hs
      · exact filter_eq_nil_of_names fsReadOnlyRules
          toggledSyscalls rfl syscall hs
    rw [evaluatePolicy, evaluatePolicy, firstMatch_eq_filter,
      firstMatch_eq_filter, hdec af ro, hdec af2 ro2]
    simp only [List.filter_append, hfork, hfs]

/-- Witness for C7: a non-toggled syscall is decided identically under
opposite values of both toggles. -/
theorem toggle_frame_c7_witness :
    evaluatePolicy (defaultPolicyRules true true) Action.kill "write"
        (fun _ => 1)
      = evaluatePolicy (defaultPolicyRules false false) Action.kill "write"
        (fun _ => 1) := by
  exact (toggle_frame_c7 true true []).2.2.2.2.2 false false "write"
    (fun _ => 1) Action.kill rfl

/-- C8: once construction completes the rule sequence is immutable:
after any sequence of trap resolutions (the only post-construction
operations that touch the policy object's state) `getRules` still
returns exactly the constructed rules, and a single trap resolution
never adds, removes, reorders or modifies a rule. -/
theorem rules_immutable_c8 (af ro : Bool) (isSignalValid : Nat → Bool)
    (events : List (String × Tracee)) (s : PolicyState)
    (syscall : String) (t : Tracee) :
    getRules (runTraps isSignalValid (initPolicyState af ro) events)
        = defaultPolicyRules af ro
    ∧ getRules (runTraps isSignalValid (initPolicyState af ro) events)
        = getRules (initPolicyState af ro)
    ∧ (onTrap isSignalValid s syscall t).2.rules = s.rules := by
  refine ⟨?_, ?_, onTrap_rules isSignalValid s syscall t⟩
  · rw [getRules, runTraps_rules]
    rfl
  · rw [getRules, runTraps_rules]
    rfl

end s2j
